import Mathlib

/-!
Verification development for the tiptap-pagination demo's pagination engine.

Each definition below is a shallow embedding of one function of the source
(`src/hooks/*.ts`, `src/composables/*.ts`, the document-processing worker,
and the two orchestrators).  TypeScript numbers are embedded as `Int`
(all the quantities involved are integer pixel counts or node counts),
documents as lists of block nodes, and DOM measurement as an optional
oracle from node ids to heights.
-/

/-! ## PAGE_CONFIG (src/hooks/pageCalculations.ts, lines 3-14) -/

def A4_HEIGHT : Int := 1123

def PAGE_MARGIN : Int := 60

def PAGE_NUMBER_HEIGHT : Int := 40

/-- `CONTENT_MAX_HEIGHT: 1123 - (60 * 2) - 40 - 20` from the source. -/
def CONTENT_MAX_HEIGHT : Int := 1123 - (60 * 2) - 40 - 20

def INITIAL_PRELOAD_COUNT : Nat := 5

def EXPAND_THRESHOLD : Nat := 4

def EXPAND_COUNT : Nat := 5

/-! ## calculateSplitPoint (src/hooks/pageCalculations.ts, lines 439-451;
identical in src/composables/pageCalculations.ts, lines 443-455).

The source assigns `splitPoint = nodeCount - 1`, then runs
`if (nodeCount > 10) { splitPoint = nodeCount - 2 } else if (nodeCount > 20)
{ splitPoint = nodeCount - 3 }` and returns `Math.max(1, splitPoint)`.
Note the `nodeCount > 20` test sits in the `else` branch of
`nodeCount > 10`, so it can never fire. -/

def calculateSplitPoint (nodeCount : Int) : Int :=
  let splitPoint : Int :=
    if nodeCount > 10 then nodeCount - 2
    else if nodeCount > 20 then nodeCount - 3
    else nodeCount - 1
  max 1 splitPoint

/-- The split-point rule as the spec words it (spec section 4.2):
`N > 20 → keep N-3`, `10 < N ≤ 20 → keep N-2`, `otherwise → keep N-1`,
floored at 1 kept node.  Used only to compare the source's
`calculateSplitPoint` against the spec's piecewise rule. -/
def specSplitPointRule (n : Int) : Int :=
  max 1 (if n > 20 then n - 3 else if n > 10 then n - 2 else n - 1)

/-- C1: the source's `calculateSplitPoint` does not implement the spec's
piecewise rule: the `nodeCount > 20` branch is unreachable (it is the
`else` of `nodeCount > 10`), so every count above 10 keeps `N - 2` nodes.
At the spec's own Scenario A input, 25 nodes, the code keeps 23 nodes
while the spec's rule keeps 22. -/
theorem calculateSplitPoint_shadowed_branch :
    (∀ n : Int, n > 20 → calculateSplitPoint n = n - 2) ∧
    calculateSplitPoint 25 = 23 ∧ specSplitPointRule 25 = 22 ∧
    calculateSplitPoint 25 ≠ specSplitPointRule 25 := by
  refine ⟨?_, by decide, by decide, by decide⟩
  intro n hn
  simp only [calculateSplitPoint]
  rw [if_pos (by omega)]
  omega

/-- Witness for `calculateSplitPoint_shadowed_branch` at `n = 25`. -/
theorem calculateSplitPoint_shadowed_branch_witness :
    calculateSplitPoint 25 = 25 - 2 :=
  calculateSplitPoint_shadowed_branch.1 25 (by decide)

/-- C8: `calculateSplitPoint` (as written in the source) keeps between 1 and
`N - 1` nodes for every count `N ≥ 2`, and is non-decreasing. -/
theorem calculateSplitPoint_bounds_mono :
    (∀ n : Int, 2 ≤ n → 1 ≤ calculateSplitPoint n ∧ calculateSplitPoint n ≤ n - 1) ∧
    (∀ n m : Int, 2 ≤ n → n ≤ m → calculateSplitPoint n ≤ calculateSplitPoint m) := by
  constructor
  · intro n hn
    simp only [calculateSplitPoint]
    split_ifs with h1 h2 <;>
      constructor <;> simp [le_max_iff, max_le_iff] <;> omega
  · intro n m hn hnm
    simp only [calculateSplitPoint]
    split_ifs with h1 h2 h3 h4 <;> simp [le_max_iff, max_le_iff] <;> omega

/-- Witness for `calculateSplitPoint_bounds_mono` at `n = 2`, `m = 25`. -/
theorem calculateSplitPoint_bounds_mono_witness :
    (1 ≤ calculateSplitPoint 2 ∧ calculateSplitPoint 2 ≤ 2 - 1) ∧
    calculateSplitPoint 2 ≤ calculateSplitPoint 25 :=
  ⟨calculateSplitPoint_bounds_mono.1 2 (by decide),
   calculateSplitPoint_bounds_mono.2 2 25 (by decide) (by decide)⟩

/-! ## Document model

A ProseMirror block node as the pagination code sees it: a type tag plus
(optional) nested content and attributes, which split and merge never
inspect.  `node.toJSON()` is the identity in this embedding. -/

structure PMNode where
  ntype : String
  ncontent : Option (List String)
  nattrs : Option (List (String × String))
deriving DecidableEq, Repr

/-- The `{ type: 'paragraph' }` placeholder node substituted for an empty
kept document. -/
def placeholderNode : PMNode := ⟨"paragraph", none, none⟩

/-- A serialized document `{ type, content }`. -/
structure PMDoc where
  dtype : String
  dcontent : List PMNode
deriving DecidableEq, Repr

/-- Result type of the splitters: `{ firstPageContent, overflowContent }`. -/
structure ContentSplitResult where
  firstPageContent : PMDoc
  overflowContent : List PMNode
deriving DecidableEq, Repr

/-! ## splitDocumentContent (src/hooks/contentManagement.ts, lines 32-53)

The source iterates `doc.content.forEach((node, offset, index) => ...)`,
pushing `node.toJSON()` onto `firstPageNodes` when `index < splitPoint`
and onto `overflowNodes` otherwise; if `firstPageNodes` stays empty the
kept document becomes `{ type: 'doc', content: [{ type: 'paragraph' }] }`.
The document is embedded as its content list. -/

def splitDocumentContent (docNodes : List PMNode) (splitPoint : Int) : ContentSplitResult :=
  let firstPageNodes : List PMNode :=
    ((docNodes.enum.filter fun q => (q.1 : Int) < splitPoint).map Prod.snd)
  let overflowNodes : List PMNode :=
    ((docNodes.enum.filter fun q => ¬((q.1 : Int) < splitPoint)).map Prod.snd)
  let firstPageContent : PMDoc :=
    if firstPageNodes.length > 0 then ⟨"doc", firstPageNodes⟩
    else ⟨"doc", [placeholderNode]⟩
  ⟨firstPageContent, overflowNodes⟩

/-- mergeDocumentContent (src/hooks/contentManagement.ts, lines 155-160):
`{ type: 'doc', content: [...firstNodes, ...secondNodes] }`. -/
def mergeDocumentContent (firstNodes secondNodes : List PMNode) : PMDoc :=
  ⟨"doc", firstNodes ++ secondNodes⟩

/-- The indices produced by `forEach` increase from `k`, so the entries
passing `index < splitPoint` are exactly the first `(p - k)` ones. -/
theorem enumFrom_filter_lt_map_snd (p : Int) :
    ∀ (ns : List PMNode) (k : Nat),
      ((List.enumFrom k ns).filter fun q => (q.1 : Int) < p).map Prod.snd
        = ns.take (p - k).toNat := by
  intro ns
  induction ns with
  | nil => intro k; simp
  | cons a l ih =>
    intro k
    simp only [List.enumFrom, List.filter_cons]
    by_cases hk : (k : Int) < p
    · rw [if_pos (by simpa using hk), List.map_cons, ih (k + 1)]
      have h1 : (p - (k : Int)).toNat = (p - ((k + 1 : Nat) : Int)).toNat + 1 := by
        push_cast; omega
      rw [h1, List.take_succ_cons]
    · rw [if_neg (by simpa using hk), ih (k + 1)]
      have h0 : (p - (k : Int)).toNat = 0 := by omega
      have h1 : (p - ((k + 1 : Nat) : Int)).toNat = 0 := by push_cast; omega
      rw [h0, h1, List.take_zero, List.take_zero]

/-- Dual of `enumFrom_filter_lt_map_snd` for the overflow side. -/
theorem enumFrom_filter_not_lt_map_snd (p : Int) :
    ∀ (ns : List PMNode) (k : Nat),
      ((List.enumFrom k ns).filter fun q => ¬((q.1 : Int) < p)).map Prod.snd
        = ns.drop (p - k).toNat := by
  intro ns
  induction ns with
  | nil => intro k; simp
  | cons a l ih =>
    intro k
    simp only [List.enumFrom, List.filter_cons]
    by_cases hk : (k : Int) < p
    · rw [if_neg (by simpa using hk), ih (k + 1)]
      have h1 : (p - (k : Int)).toNat = (p - ((k + 1 : Nat) : Int)).toNat + 1 := by
        push_cast; omega
      rw [h1, List.drop_succ_cons]
    · rw [if_pos (by simpa using hk), List.map_cons, ih (k + 1)]
      have h0 : (p - (k : Int)).toNat = 0 := by omega
      have h1 : (p - ((k + 1 : Nat) : Int)).toNat = 0 := by push_cast; omega
      rw [h0, h1, List.drop_zero, List.drop_zero]

/-- The kept nodes of a split are the `splitPoint`-prefix of the document. -/
theorem splitDocumentContent_kept_nodes (ns : List PMNode) (p : Int) :
    ((ns.enum.filter fun q => (q.1 : Int) < p).map Prod.snd) = ns.take p.toNat := by
  have := enumFrom_filter_lt_map_snd p ns 0
  simpa [List.enum] using this

/-- The overflow nodes of a split are the matching suffix of the document. -/
theorem splitDocumentContent_overflow_nodes (ns : List PMNode) (p : Int) :
    ((ns.enum.filter fun q => ¬((q.1 : Int) < p)).map Prod.snd) = ns.drop p.toNat := by
  have := enumFrom_filter_not_lt_map_snd p ns 0
  simpa [List.enum] using this

/-- Closed form of `splitDocumentContent`: kept nodes are the prefix,
overflow the suffix, with the empty-paragraph substitution for an empty
kept part. -/
theorem splitDocumentContent_eq (ns : List PMNode) (p : Int) :
    splitDocumentContent ns p =
      ⟨if (ns.take p.toNat).length > 0 then ⟨"doc", ns.take p.toNat⟩
        else ⟨"doc", [placeholderNode]⟩,
       ns.drop p.toNat⟩ := by
  simp only [splitDocumentContent, splitDocumentContent_kept_nodes,
    splitDocumentContent_overflow_nodes]

/-- C2: for a valid split point `1 ≤ p ≤ |ns|`, splitting puts nodes
`[0, p)` into the kept part and the rest into overflow, and merging the
two parts restores the original node sequence exactly. -/
theorem split_then_merge_id (ns : List PMNode) (p : Int)
    (hp1 : 1 ≤ p) (hp2 : p ≤ (ns.length : Int)) :
    (splitDocumentContent ns p).firstPageContent.dcontent = ns.take p.toNat ∧
    (splitDocumentContent ns p).overflowContent = ns.drop p.toNat ∧
    (mergeDocumentContent (splitDocumentContent ns p).firstPageContent.dcontent
        (splitDocumentContent ns p).overflowContent).dcontent = ns := by
  have hlen : (ns.take p.toNat).length > 0 := by
    rw [List.length_take]
    omega
  rw [splitDocumentContent_eq, if_pos hlen]
  refine ⟨rfl, rfl, ?_⟩
  simp [mergeDocumentContent]

/-- Witness for `split_then_merge_id`: a 3-node document split at 2. -/
theorem split_then_merge_id_witness :
    (mergeDocumentContent
        (splitDocumentContent
          [⟨"heading", none, none⟩, ⟨"paragraph", none, none⟩,
           ⟨"paragraph", none, none⟩] 2).firstPageContent.dcontent
        (splitDocumentContent
          [⟨"heading", none, none⟩, ⟨"paragraph", none, none⟩,
           ⟨"paragraph", none, none⟩] 2).overflowContent).dcontent
      = [⟨"heading", none, none⟩, ⟨"paragraph", none, none⟩,
         ⟨"paragraph", none, none⟩] :=
  (split_then_merge_id
    [⟨"heading", none, none⟩, ⟨"paragraph", none, none⟩,
     ⟨"paragraph", none, none⟩] 2 (by decide) (by decide)).2.2

/-- C10: `splitDocumentContent` is total in `splitPoint` (any integer is
accepted); `p ≥ |ns|` keeps every node with empty overflow, `p ≤ 0` sends
every node to overflow and substitutes the empty-paragraph placeholder for
the kept document (which is never structurally empty), and in every case
the kept prefix plus the overflow is exactly the original sequence. -/
theorem splitDocumentContent_total_safe (ns : List PMNode) (p : Int) :
    ns.take p.toNat ++ (splitDocumentContent ns p).overflowContent = ns ∧
    (splitDocumentContent ns p).firstPageContent.dcontent ≠ [] ∧
    ((ns.length : Int) ≤ p →
      (splitDocumentContent ns p).overflowContent = [] ∧
      (∀ n ∈ ns, n ∈ (splitDocumentContent ns p).firstPageContent.dcontent) ∧
      (ns ≠ [] → (splitDocumentContent ns p).firstPageContent.dcontent = ns)) ∧
    (p ≤ 0 →
      (splitDocumentContent ns p).overflowContent = ns ∧
      (splitDocumentContent ns p).firstPageContent = ⟨"doc", [placeholderNode]⟩) := by
  rw [splitDocumentContent_eq]
  refine ⟨List.take_append_drop _ _, ?_, ?_, ?_⟩
  · by_cases h : (ns.take p.toNat).length > 0
    · rw [if_pos h]
      intro hc
      have hc2 : ns.take p.toNat = [] := hc
      rw [hc2] at h
      simp at h
    · rw [if_neg h]
      simp
  · intro hge
    have htake : ns.take p.toNat = ns := by
      apply List.take_of_length_le
      omega
    have hdrop : ns.drop p.toNat = [] := by
      apply List.drop_eq_nil_of_le
      omega
    refine ⟨hdrop, ?_, ?_⟩
    · intro n hn
      by_cases h : (ns.take p.toNat).length > 0
      · rw [if_pos h]
        simpa [htake] using hn
      · rw [htake] at h
        simp only [not_lt, Nat.le_zero, List.length_eq_zero] at h
        rw [h] at hn
        simp at hn
    · intro hne
      have h : (ns.take p.toNat).length > 0 := by
        rw [htake]
        exact List.length_pos.mpr hne
      rw [if_pos h, htake]
  · intro hle
    have h0 : p.toNat = 0 := by omega
    rw [h0]
    simp

/-! ## Background worker and its synchronous fallbacks

`src/workers/documentProcessor.worker.ts` (the unnamed worker source) and
the fallback implementations inside `useWorkerManager.ts`.  The worker
receives a serialized document `{ type, content }` whose `content` may be
absent (`if (doc.content && Array.isArray(doc.content))`). -/

structure WDoc where
  wtype : String
  wcontent : Option (List PMNode)
deriving DecidableEq, Repr

/-- Worker `splitDocumentContent` (worker source, lines 25-48). -/
def workerSplitDocumentContent (doc : WDoc) (splitPoint : Int) : ContentSplitResult :=
  let nodesList : List PMNode :=
    match doc.wcontent with
    | some ns => ns
    | none => []
  let firstPageNodes : List PMNode :=
    ((nodesList.enum.filter fun q => (q.1 : Int) < splitPoint).map Prod.snd)
  let overflowNodes : List PMNode :=
    ((nodesList.enum.filter fun q => ¬((q.1 : Int) < splitPoint)).map Prod.snd)
  let firstPageContent : PMDoc :=
    if firstPageNodes.length > 0 then ⟨"doc", firstPageNodes⟩
    else ⟨"doc", [placeholderNode]⟩
  ⟨firstPageContent, overflowNodes⟩

/-- `fallbackSplitDocument` (src/hooks/useWorkerManager.ts, lines 194-217):
the main-thread re-execution used on worker failure. -/
def fallbackSplitDocument (doc : WDoc) (splitPoint : Int) : ContentSplitResult :=
  let nodesList : List PMNode :=
    match doc.wcontent with
    | some ns => ns
    | none => []
  let firstPageNodes : List PMNode :=
    ((nodesList.enum.filter fun q => (q.1 : Int) < splitPoint).map Prod.snd)
  let overflowNodes : List PMNode :=
    ((nodesList.enum.filter fun q => ¬((q.1 : Int) < splitPoint)).map Prod.snd)
  let firstPageContent : PMDoc :=
    if firstPageNodes.length > 0 then ⟨"doc", firstPageNodes⟩
    else ⟨"doc", [placeholderNode]⟩
  ⟨firstPageContent, overflowNodes⟩

/-- Worker `mergeDocumentContent` (worker source, lines 51-56). -/
def workerMergeDocumentContent (firstNodes secondNodes : List PMNode) : PMDoc :=
  ⟨"doc", firstNodes ++ secondNodes⟩

/-- `fallbackMergeContent` (src/hooks/useWorkerManager.ts, lines 220-225). -/
def fallbackMergeContent (firstNodes secondNodes : List PMNode) : PMDoc :=
  ⟨"doc", firstNodes ++ secondNodes⟩

/-- One analyzed node `{ index, type, content, attrs }`. -/
structure AnalyzedNode where
  idx : Nat
  atype : String
  acontent : List String
  aattrs : List (String × String)
deriving DecidableEq, Repr

/-- The `stats` accumulator from the node analyzers. -/
structure NodeStats where
  totalNodes : Nat
  paragraphs : Nat
  headings : Nat
  lists : Nat
  estimatedHeight : Int
deriving DecidableEq, Repr

/-- One step of the analyzers' `switch (node.type)`.  For lists the source
computes `30 * (node.content?.length || 1)` (missing or empty content
counts as 1). -/
def analyzeStatsStep (st : NodeStats) (node : PMNode) : NodeStats :=
  if node.ntype = "paragraph" then
    { st with totalNodes := st.totalNodes + 1, paragraphs := st.paragraphs + 1,
              estimatedHeight := st.estimatedHeight + 40 }
  else if node.ntype = "heading" then
    { st with totalNodes := st.totalNodes + 1, headings := st.headings + 1,
              estimatedHeight := st.estimatedHeight + 60 }
  else if node.ntype = "bulletList" ∨ node.ntype = "orderedList" then
    { st with totalNodes := st.totalNodes + 1, lists := st.lists + 1,
              estimatedHeight := st.estimatedHeight + 30 *
                (match node.ncontent with
                 | none => 1
                 | some l => if l.length = 0 then 1 else (l.length : Int)) }
  else
    { st with totalNodes := st.totalNodes + 1,
              estimatedHeight := st.estimatedHeight + 50 }

/-- Worker `analyzeDocumentNodes` (worker source, lines 59-102). -/
def analyzeDocumentNodes (doc : WDoc) : List AnalyzedNode × NodeStats :=
  let nodesList : List PMNode :=
    match doc.wcontent with
    | some ns => ns
    | none => []
  let nodes : List AnalyzedNode :=
    nodesList.enum.map fun q => ⟨q.1, q.2.ntype, q.2.ncontent.getD [], q.2.nattrs.getD []⟩
  let stats : NodeStats := nodesList.foldl analyzeStatsStep ⟨0, 0, 0, 0, 0⟩
  (nodes, stats)

/-- `fallbackAnalyzeNodes` (src/hooks/useWorkerManager.ts, lines 228-270). -/
def fallbackAnalyzeNodes (doc : WDoc) : List AnalyzedNode × NodeStats :=
  let nodesList : List PMNode :=
    match doc.wcontent with
    | some ns => ns
    | none => []
  let nodes : List AnalyzedNode :=
    nodesList.enum.map fun q => ⟨q.1, q.2.ntype, q.2.ncontent.getD [], q.2.nattrs.getD []⟩
  let stats : NodeStats := nodesList.foldl analyzeStatsStep ⟨0, 0, 0, 0, 0⟩
  (nodes, stats)

/-- Worker `calculateOptimalSplitPoint` (worker source, lines 105-121).
`Math.floor(nodeCount * 0.8)` agrees with `nodeCount * 4 / 5` on the
`nodeCount > 20` branch that uses it (integer division on positives; the
double-rounding of `0.8` cannot move the product across an integer for
these magnitudes).  The `targetHeight` parameter is unused in the source
body and is omitted. -/
def calculateOptimalSplitPoint (nodeCount : Int) : Int :=
  if nodeCount > 20 then nodeCount * 4 / 5
  else if nodeCount > 10 then nodeCount - 2
  else if nodeCount > 5 then nodeCount - 1
  else max 1 (nodeCount - 1)

/-- `fallbackCalculateSplitPoint` (src/hooks/useWorkerManager.ts, lines
273-287); its initial `Math.max(1, nodeCount - 1)` is overwritten in every
branch of the chain. -/
def fallbackCalculateSplitPoint (nodeCount : Int) : Int :=
  if nodeCount > 20 then nodeCount * 4 / 5
  else if nodeCount > 10 then nodeCount - 2
  else if nodeCount > 5 then nodeCount - 1
  else max 1 (nodeCount - 1)

/-- C3 counterexample: the worker's split-point rule and the inline
`calculateSplitPoint` used by the orchestrators disagree at 25 nodes
(`floor(25 * 0.8) = 20` versus `25 - 2 = 23`). -/
theorem worker_inline_splitPoint_disagree :
    calculateOptimalSplitPoint 25 = 20 ∧ calculateSplitPoint 25 = 23 ∧
    calculateOptimalSplitPoint 25 ≠ calculateSplitPoint 25 := by
  decide

/-- C3 amended: the worker implementations of splitDocument, mergeContent
and analyzeNodes coincide with their synchronous fallbacks on every input,
and a failed background channel makes the asynchronous split fall back to
exactly the synchronous `splitDocumentContent`; the two split-point
computations coincide only up to 20 nodes. -/
theorem worker_matches_inline_amended :
    (∀ (d : WDoc) (p : Int), workerSplitDocumentContent d p = fallbackSplitDocument d p) ∧
    (∀ a b : List PMNode, workerMergeDocumentContent a b = fallbackMergeContent a b) ∧
    (∀ d : WDoc, analyzeDocumentNodes d = fallbackAnalyzeNodes d) ∧
    (∀ n : Int, 1 ≤ n → n ≤ 20 → calculateOptimalSplitPoint n = calculateSplitPoint n) ∧
    (∀ (ns : List PMNode) (p : Int),
      fallbackSplitDocument ⟨"doc", some ns⟩ p = splitDocumentContent ns p) := by
  refine ⟨fun d p => rfl, fun a b => rfl, fun d => rfl, ?_, fun ns p => rfl⟩
  intro n h1 h2
  simp only [calculateOptimalSplitPoint, calculateSplitPoint]
  split_ifs <;> omega

/-- Witness for `worker_matches_inline_amended` at 15 nodes. -/
theorem worker_matches_inline_amended_witness :
    calculateOptimalSplitPoint 15 = calculateSplitPoint 15 :=
  worker_matches_inline_amended.2.2.2.1 15 (by decide) (by decide)

/-! ## Overflow detector (src/hooks/pageCalculations.ts, lines 86-111)

`checkPageOverflowState` reads the ProseMirror element's `scrollHeight`;
a missing element yields `{ hasOverflow: false, actualHeight: 0 }`.  The
measurement is embedded as an optional height. -/

def checkPageOverflowState (proseMirrorHeight : Option Int) : Bool × Int :=
  match proseMirrorHeight with
  | none => (false, 0)
  | some actualContentHeight =>
    let overflowThreshold := CONTENT_MAX_HEIGHT
    let bufferSpace : Int := 10
    (actualContentHeight > overflowThreshold - bufferSpace, actualContentHeight)

/-- C7: the capacity constant is `1123 − 120 − 40 − 20 = 943`, and for a
measured page the detector reports overflow exactly when the content
height strictly exceeds `capacity − 10`, returning the measured height
unchanged (the embedded function is pure, so it has no side effects on
page state by construction). -/
theorem checkPageOverflowState_policy :
    CONTENT_MAX_HEIGHT = 1123 - 120 - 40 - 20 ∧ CONTENT_MAX_HEIGHT = 943 ∧
    ∀ h : Int,
      ((checkPageOverflowState (some h)).1 = true ↔ CONTENT_MAX_HEIGHT - 10 < h) ∧
      (checkPageOverflowState (some h)).2 = h := by
  refine ⟨by decide, by decide, fun h => ⟨?_, rfl⟩⟩
  simp [checkPageOverflowState, CONTENT_MAX_HEIGHT]

/-! ## Cursor restoration (both orchestrators' "smart cursor position
restoration" after an upward merge: React orchestrator lines 330-355,
`src/composables/useMultiEditorPagination.ts` lines 336-341)

The source computes
`maxValidPosition = Math.min(savedContentSize - 1, newContentSize - 1)`,
`targetPosition = Math.max(1, Math.min(savedPosition, maxValidPosition))`
and moves the cursor there. -/

def restoreCursorTarget (savedPosition savedContentSize newContentSize : Int) : Int :=
  let maxValidPosition := min (savedContentSize - 1) (newContentSize - 1)
  max 1 (min savedPosition maxValidPosition)

/-- The spec's clamp: `clamp(x, lo, hi) = max lo (min x hi)`. -/
def specClamp (x lo hi : Int) : Int := max lo (min x hi)

/-- C4: whenever the saved offset is a position of the saved document
(`pos ≤ savedSize - 1`), the restored cursor offset is exactly
`clamp(min(pos, newSize-1), 1, newSize-1)`; and for any requested offset
at all — 0 and negative included — the restored offset lies in
`[1, newSize-1]` once the new document size is at least 2. -/
theorem restoreCursorTarget_clamp (pos savedSize newSize : Int) (h2 : 2 ≤ newSize) :
    (pos ≤ savedSize - 1 →
      restoreCursorTarget pos savedSize newSize
        = specClamp (min pos (newSize - 1)) 1 (newSize - 1)) ∧
    1 ≤ restoreCursorTarget pos savedSize newSize ∧
    restoreCursorTarget pos savedSize newSize ≤ newSize - 1 := by
  simp only [restoreCursorTarget, specClamp]
  refine ⟨fun hps => ?_, ?_, ?_⟩ <;> omega

/-- Witness for `restoreCursorTarget_clamp`: requested offset 0 with a
saved size of 5 and a new size of 4 restores to offset 1. -/
theorem restoreCursorTarget_clamp_witness :
    (restoreCursorTarget 0 5 4 = specClamp (min 0 (4 - 1)) 1 (4 - 1)) ∧
    1 ≤ restoreCursorTarget 0 5 4 ∧ restoreCursorTarget 0 5 4 ≤ 4 - 1 :=
  ⟨(restoreCursorTarget_clamp 0 5 4 (by decide)).1 (by decide),
   (restoreCursorTarget_clamp 0 5 4 (by decide)).2.1,
   (restoreCursorTarget_clamp 0 5 4 (by decide)).2.2⟩

/-! ## Pagination orchestrator, per-page auto-pagination state

Embeds the fields of a page descriptor touched by `checkPageOverflow`
(React orchestrator lines 188-240, `src/composables/useMultiEditorPagination.ts`
lines 187-232), by the scheduled `handleOverflow` pass (which increments
`paginationCount` once, applies the split and clears `isAutoPaginating`),
and by `resetPaginationCount`.  One overflow check together with the
overflow-handling pass it schedules is one step. -/

structure PageState where
  hasOverflow : Bool
  contentHeight : Int
  isAutoPaginating : Bool
  paginationCount : Nat
deriving DecidableEq, Repr

/-- `createPageData` starts a page with no overflow and zero counts
(src/composables/pagePoolManager.ts, lines 21-37). -/
def initialPageState : PageState := ⟨false, 0, false, 0⟩

/-- One `checkPageOverflow` call on a page measured at `measuredHeight`,
together with the `handleOverflow` pass it schedules when it decides to
auto-paginate.  Mirrors the source: persist the measurement; if
overflowing on the current page, refuse when `paginationCount >= 3` or
when a pass is already running, otherwise run the pass (which adds 1 to
`paginationCount`, splits, and finishes with `isAutoPaginating = false`);
if not overflowing, clear `isAutoPaginating` and zero `paginationCount`. -/
def overflowCheckStep (s : PageState) (measuredHeight : Int) (isCurrentPage : Bool) : PageState :=
  let checked := checkPageOverflowState (some measuredHeight)
  let s1 : PageState := { s with hasOverflow := checked.1, contentHeight := checked.2 }
  if checked.1 && isCurrentPage then
    if s1.paginationCount ≥ 3 then s1
    else if s1.isAutoPaginating then s1
    else { s1 with isAutoPaginating := false, paginationCount := s1.paginationCount + 1 }
  else if !checked.1 then
    { s1 with isAutoPaginating := false, paginationCount := 0 }
  else s1

/-- `resetPaginationCount` (React orchestrator lines 676-687). -/
def resetPaginationStep (s : PageState) : PageState :=
  { s with paginationCount := 0, isAutoPaginating := false }

/-- The events the orchestrator can apply to one page's pagination state. -/
inductive PageEvent where
  | overflowCheck (measuredHeight : Int) (isCurrentPage : Bool)
  | resetCount
deriving DecidableEq, Repr

def pageStep : PageEvent → PageState → PageState
  | .overflowCheck h c, s => overflowCheckStep s h c
  | .resetCount, s => resetPaginationStep s

def runPageEvents (events : List PageEvent) (s : PageState) : PageState :=
  events.foldl (fun st e => pageStep e st) s

/-- Every single step preserves the 3-attempt cap. -/
theorem pageStep_preserves_cap (e : PageEvent) (s : PageState)
    (h : s.paginationCount ≤ 3) : (pageStep e s).paginationCount ≤ 3 := by
  cases e with
  | overflowCheck hgt c =>
    simp only [pageStep, overflowCheckStep]
    split_ifs with h1 h2 h3 h4 <;> simp_all <;> omega
  | resetCount =>
    simp [pageStep, resetPaginationStep]

/-- The cap holds along any run of the orchestrator's events. -/
theorem runPageEvents_preserves_cap :
    ∀ (events : List PageEvent) (s : PageState), s.paginationCount ≤ 3 →
      (runPageEvents events s).paginationCount ≤ 3 := by
  intro events
  induction events with
  | nil => intro s hs; simpa [runPageEvents] using hs
  | cons e rest ih =>
    intro s hs
    simpa [runPageEvents] using ih (pageStep e s) (pageStep_preserves_cap e s hs)

/-- C5: from a freshly created page, after any sequence of overflow checks
and resets `paginationCount` never exceeds 3; an overflow check on a page
already at 3 or more attempts changes neither `paginationCount` nor
`isAutoPaginating`; an overflow-handling pass (overflow present, cap not
reached, no pass already running) increments `paginationCount` by exactly
1; a no-overflow check zeroes `paginationCount` and `isAutoPaginating`,
as does `resetPaginationCount`. -/
theorem paginationCount_capped :
    (∀ events : List PageEvent,
      (runPageEvents events initialPageState).paginationCount ≤ 3) ∧
    (∀ (s : PageState) (h : Int), (checkPageOverflowState (some h)).1 = true →
      3 ≤ s.paginationCount →
      (overflowCheckStep s h true).paginationCount = s.paginationCount ∧
      (overflowCheckStep s h true).isAutoPaginating = s.isAutoPaginating) ∧
    (∀ (s : PageState) (h : Int), (checkPageOverflowState (some h)).1 = true →
      s.paginationCount < 3 → s.isAutoPaginating = false →
      (overflowCheckStep s h true).paginationCount = s.paginationCount + 1) ∧
    (∀ (s : PageState) (h : Int) (c : Bool), (checkPageOverflowState (some h)).1 = false →
      (overflowCheckStep s h c).paginationCount = 0 ∧
      (overflowCheckStep s h c).isAutoPaginating = false) ∧
    (∀ s : PageState, (resetPaginationStep s).paginationCount = 0 ∧
      (resetPaginationStep s).isAutoPaginating = false) := by
  refine ⟨?_, ?_, ?_, ?_, ?_⟩
  · intro events
    exact runPageEvents_preserves_cap events initialPageState (by decide)
  · intro s h hov hcap
    simp only [overflowCheckStep, hov]
    split_ifs with h1 h2 <;> simp_all <;> omega
  · intro s h hov hlt hauto
    simp only [overflowCheckStep, hov]
    split_ifs with h1 h2 <;> simp_all <;> omega
  · intro s h c hov
    simp only [overflowCheckStep, hov]
    split_ifs <;> simp_all
  · intro s
    simp [resetPaginationStep]

/-- Witness for `paginationCount_capped`: two overflowing checks on the
current page take a fresh page to 2 attempts, below the cap. -/
theorem paginationCount_capped_witness :
    (runPageEvents [.overflowCheck 1000 true, .overflowCheck 1000 true]
        initialPageState).paginationCount ≤ 3 ∧
    (overflowCheckStep ⟨false, 0, false, 3⟩ 1000 true).paginationCount = 3 :=
  ⟨paginationCount_capped.1 [.overflowCheck 1000 true, .overflowCheck 1000 true],
   by
    have := (paginationCount_capped.2.1 ⟨false, 0, false, 3⟩ 1000 (by decide) (by decide)).1
    simpa using this⟩

/-! ## Upward-merge decision (src/hooks/pageCalculations.ts, lines 293-368)

`canMergeUpward(currentHeight, nextPageNodes, nextPageElement?)`.  DOM
measurement is embedded as an optional oracle: `some measure` is the case
where the next page's element (and its ProseMirror element) is available,
with `measure id` the measured total height of the node with that id
(`none` when `querySelector` finds no element, in which case the source
uses the `60 + 20` estimate); `none` is the case without a usable page
element, where the source falls back to the 80px-average loop. -/

structure NodeData where
  nid : String
  ntype : String
  position : Int
deriving DecidableEq, Repr

structure MergeCheckResult where
  canMerge : Bool
  nodesToMerge : Nat
deriving DecidableEq, Repr

/-- The measured loop of `canMergeUpward`: per node, add its measured
height (or the `60 + 20` estimate), and keep counting while the
cumulative height stays within the remaining space, stopping at the first
node that would exceed it. -/
def measuredMergeCount (measure : String → Option Int) (remainingSpace : Int) :
    Int → List NodeData → Nat
  | _, [] => 0
  | cumulativeHeight, nodeData :: rest =>
    let nodeHeight : Int :=
      match measure nodeData.nid with
      | some hgt => hgt
      | none => 60 + 20
    if cumulativeHeight + nodeHeight ≤ remainingSpace then
      1 + measuredMergeCount measure remainingSpace (cumulativeHeight + nodeHeight) rest
    else 0

/-- The fallback estimation loop of `canMergeUpward`:
`for (i = 0; i < len && accumulatedHeight < remainingSpace; i++)
{ accumulatedHeight += 80; nodesToMerge++ }` — note it admits a node
whenever the total *before* that node is below the remaining space. -/
def avgMergeCount (remainingSpace : Int) : Int → List NodeData → Nat
  | _, [] => 0
  | accumulatedHeight, _ :: rest =>
    if accumulatedHeight < remainingSpace then
      1 + avgMergeCount remainingSpace (accumulatedHeight + 80) rest
    else 0

def canMergeUpward (currentHeight : Int) (nextPageNodes : List NodeData)
    (nextPageMeasure : Option (String → Option Int)) : MergeCheckResult :=
  let remainingSpace := CONTENT_MAX_HEIGHT - currentHeight - 20
  if remainingSpace ≤ 0 ∨ nextPageNodes.length = 0 then ⟨false, 0⟩
  else
    match nextPageMeasure with
    | some measure =>
      let n := measuredMergeCount measure remainingSpace 0 nextPageNodes
      ⟨decide (n > 0), n⟩
    | none =>
      let n := avgMergeCount remainingSpace 0 nextPageNodes
      ⟨decide (n > 0), n⟩

/-- The walk exactly as the claim words it: obtain each node's real
measured height by id, fall back to an 80px estimate when the node is
unmeasurable, include a node only if the running total stays within the
remaining space, and stop at the first node that would exceed it. -/
def specWalkCount (measure : String → Option Int) (remainingSpace : Int) :
    Int → List NodeData → Nat
  | _, [] => 0
  | runningTotal, nodeData :: rest =>
    let nodeHeight : Int := (measure nodeData.nid).getD 80
    if runningTotal + nodeHeight ≤ remainingSpace then
      1 + specWalkCount measure remainingSpace (runningTotal + nodeHeight) rest
    else 0

/-- The upward-merge decision exactly as the claim words it (same gate,
then the spec walk). -/
def canMergeUpwardSpec (currentHeight : Int) (nextPageNodes : List NodeData)
    (measure : String → Option Int) : MergeCheckResult :=
  let remainingSpace := CONTENT_MAX_HEIGHT - currentHeight - 20
  if remainingSpace ≤ 0 ∨ nextPageNodes.length = 0 then ⟨false, 0⟩
  else
    let n := specWalkCount measure remainingSpace 0 nextPageNodes
    ⟨decide (n > 0), n⟩

/-- The measured loop is the claim's walk (the `60 + 20` estimate is the
claim's 80px). -/
theorem measuredMergeCount_eq_specWalkCount
    (measure : String → Option Int) (rs : Int) :
    ∀ (nodes : List NodeData) (acc : Int),
      measuredMergeCount measure rs acc nodes = specWalkCount measure rs acc nodes := by
  intro nodes
  induction nodes with
  | nil => intro acc; rfl
  | cons a rest ih =>
    intro acc
    simp only [measuredMergeCount, specWalkCount]
    cases hm : measure a.nid with
    | some hgt =>
      simp only [hm, Option.getD_some]
      split_ifs <;> simp [ih]
    | none =>
      simp only [hm, Option.getD_none]
      norm_num
      split_ifs <;> simp [ih]

/-- C6 counterexample: with 23px of remaining space (current height
900px) and a next page holding one node, an unmeasurable next page makes
`canMergeUpward` report `{canMerge: true, nodesToMerge: 1}` although the
80px estimate exceeds the remaining space; the claim's walk reports
`{canMerge: false, nodesToMerge: 0}`. -/
theorem canMergeUpward_unmeasured_counterexample :
    canMergeUpward 900 [⟨"n1", "paragraph", 0⟩] none = ⟨true, 1⟩ ∧
    canMergeUpwardSpec 900 [⟨"n1", "paragraph", 0⟩] (fun _ => none) = ⟨false, 0⟩ ∧
    canMergeUpward 900 [⟨"n1", "paragraph", 0⟩] none
      ≠ canMergeUpwardSpec 900 [⟨"n1", "paragraph", 0⟩] (fun _ => none) := by
  refine ⟨rfl, rfl, ?_⟩
  decide

/-- C6 amended: whenever the next page's element is measurable,
`canMergeUpward` behaves exactly as the claim describes (per-node heights
by id, 80px fallback for individual unmeasurable nodes, include only
while the running total stays within the remaining space); and in every
mode it returns `{canMerge: false, nodesToMerge: 0}` when the remaining
space `943 - currentHeight - 20` is non-positive or the next page has no
nodes. -/
theorem canMergeUpward_measured_behaviour :
    (∀ (h : Int) (nodes : List NodeData) (measure : String → Option Int),
      canMergeUpward h nodes (some measure) = canMergeUpwardSpec h nodes measure) ∧
    (∀ (h : Int) (nodes : List NodeData) (m : Option (String → Option Int)),
      CONTENT_MAX_HEIGHT - h - 20 ≤ 0 ∨ nodes = [] →
      canMergeUpward h nodes m = ⟨false, 0⟩) := by
  constructor
  · intro h nodes measure
    simp only [canMergeUpward, canMergeUpwardSpec]
    split_ifs with hgate
    · rfl
    · rw [measuredMergeCount_eq_specWalkCount]
  · intro h nodes m hyp
    have hgate : CONTENT_MAX_HEIGHT - h - 20 ≤ 0 ∨ nodes.length = 0 := by
      rcases hyp with h1 | h2
      · exact Or.inl h1
      · exact Or.inr (by simp [h2])
    simp only [canMergeUpward]
    rw [if_pos hgate]

/-- Witness for `canMergeUpward_measured_behaviour`: a 940px-high page has
no room (remaining space −17px), so nothing merges. -/
theorem canMergeUpward_measured_behaviour_witness :
    canMergeUpward 940 [⟨"n1", "paragraph", 0⟩] none = ⟨false, 0⟩ :=
  canMergeUpward_measured_behaviour.2 940 [⟨"n1", "paragraph", 0⟩] none
    (Or.inl (by decide))

/-! ## Page pool (src/composables/pagePoolManager.ts)

`createPagePool(count)` builds `count` pages around fresh editors holding
one empty paragraph (`'<p></p>'`); every page after the first is
deactivated (non-editable) and only page 0 is created visible.
`expandPagePool` appends `EXPAND_COUNT` freshly created pages and then
marks every one of them invisible and non-editable. -/

structure PoolPage where
  isVisible : Bool
  isEditable : Bool
  contentNodes : List PMNode
deriving DecidableEq, Repr

def createPagePool (count : Nat) : List PoolPage :=
  (List.range count).map fun i => ⟨i == 0, i == 0, [placeholderNode]⟩

/-- `expandPagePool` (src/composables/pagePoolManager.ts, lines 74-89). -/
def expandPagePool (pool : List PoolPage) : List PoolPage :=
  let newPages : List PoolPage :=
    (createPagePool EXPAND_COUNT).map fun p =>
      { p with isVisible := false, isEditable := false }
  pool ++ newPages

/-- `shouldExpandPool` (src/composables/pagePoolManager.ts, lines 92-95). -/
def shouldExpandPool (visibleCount poolSize : Nat) : Bool :=
  visibleCount ≥ EXPAND_THRESHOLD && visibleCount + EXPAND_COUNT > poolSize

/-- C9: pool expansion appends exactly `EXPAND_COUNT = 5` new inactive
(invisible, non-editable, empty) page descriptors after the untouched
existing pool; it is triggered precisely when
`visibleCount ≥ EXPAND_THRESHOLD = 4` and `visibleCount + 5 > poolSize`;
in particular a pool preloaded with 5 pages expands at a visible count of
4 and grows to 10 descriptors. -/
theorem pool_expansion :
    (∀ pool : List PoolPage,
      (expandPagePool pool).length = pool.length + EXPAND_COUNT ∧
      (expandPagePool pool).take pool.length = pool ∧
      ∀ p ∈ (expandPagePool pool).drop pool.length,
        p.isVisible = false ∧ p.isEditable = false ∧ p.contentNodes = [placeholderNode]) ∧
    (∀ v ps : Nat,
      shouldExpandPool v ps = true ↔ EXPAND_THRESHOLD ≤ v ∧ ps < v + EXPAND_COUNT) ∧
    (shouldExpandPool 4 5 = true ∧
      ∀ pool : List PoolPage, pool.length = 5 → (expandPagePool pool).length = 10) := by
  refine ⟨?_, ?_, by decide, ?_⟩
  · intro pool
    refine ⟨?_, ?_, ?_⟩
    · simp [expandPagePool, createPagePool, EXPAND_COUNT]
    · simpa [expandPagePool] using List.take_left pool _
    · intro p hp
      rw [expandPagePool, List.drop_left] at hp
      obtain ⟨q, hq, rfl⟩ := List.mem_map.mp hp
      simp only [createPagePool, List.mem_map, List.mem_range] at hq
      obtain ⟨i, hi, rfl⟩ := hq
      exact ⟨rfl, rfl, rfl⟩
  · intro v ps
    simp only [shouldExpandPool, Bool.and_eq_true, decide_eq_true_eq, ge_iff_le, gt_iff_lt]
  · intro pool hlen
    simp [expandPagePool, createPagePool, EXPAND_COUNT, hlen]

/-- Witness for `pool_expansion`: expanding the 5-page preloaded pool
yields 10 descriptors. -/
theorem pool_expansion_witness :
    (expandPagePool (createPagePool 5)).length = 10 :=
  pool_expansion.2.2.2 (createPagePool 5) (by decide)

/-- Witness for `splitDocumentContent_total_safe`: a split point of −1
overflows the whole single-node document, a split point of 5 overflows
nothing. -/
theorem splitDocumentContent_total_safe_witness :
    (splitDocumentContent [⟨"paragraph", none, none⟩] (-1)).overflowContent
      = [⟨"paragraph", none, none⟩] ∧
    (splitDocumentContent [⟨"paragraph", none, none⟩] 5).overflowContent = [] :=
  ⟨((splitDocumentContent_total_safe [⟨"paragraph", none, none⟩] (-1)).2.2.2
      (by decide)).1,
   ((splitDocumentContent_total_safe [⟨"paragraph", none, none⟩] 5).2.2.1
      (by decide)).1⟩
